import Mathlib

/-!
Shallow embedding of `lib/status.js`: the rolling-window statistics tracker
(`Status`) of the opossum circuit breaker.

Modelling conventions:
* JS numbers are modelled as exact rationals (`ℚ`); counters, which are only
  ever incremented by 1 from 0, as `ℕ`.
* A JS object field that may be absent (`undefined`) is an `Option`.
* `x || 0` on numbers is modelled by `jsOr` / `jsIndexOr` (0 is falsy, an
  out-of-bounds read yields `undefined`, hence 0).
* The timer wiring (`setInterval`, `unref`, snapshot events) is real time and
  is not part of any functional claim; rotation is modelled as the pure window
  transformation `nextBucket` that the timer callback performs.
* For claims about object identity (the `window` accessor returns a shallow
  copy whose elements alias the internal buckets), a second, reference-level
  model `StatusRef` makes bucket identity explicit: buckets live in a heap
  indexed by allocation ids and the window is the list of ids.
-/

/-- One time slice of the rolling window; the literal returned by `bucket()`
in `lib/status.js`.  Note the JS object literal has *no*
`isCircuitBreakerOpen` key: that field is `undefined` (`none`) until
`open()`/`close()` first writes it.  The `percentiles` key of the literal is
an empty map only ever populated on the aggregate, so it is carried here
unchanged. -/
structure Bucket where
  failures : ℕ
  fallbacks : ℕ
  successes : ℕ
  rejects : ℕ
  fires : ℕ
  timeouts : ℕ
  cacheHits : ℕ
  cacheMisses : ℕ
  semaphoreRejections : ℕ
  isCircuitBreakerOpen : Option Bool
  percentiles : List (ℚ × ℚ)
  latencyTimes : List ℚ
  deriving Repr, DecidableEq, Inhabited

/-- `bucket()` from `lib/status.js`. -/
def bucket : Bucket :=
  { failures := 0
    fallbacks := 0
    successes := 0
    rejects := 0
    fires := 0
    timeouts := 0
    cacheHits := 0
    cacheMisses := 0
    semaphoreRejections := 0
    isCircuitBreakerOpen := none
    percentiles := []
    latencyTimes := [] }

/-- The nine counter names `increment` may be called with. -/
inductive Property where
  | failures | fallbacks | successes | rejects | fires
  | timeouts | cacheHits | cacheMisses | semaphoreRejections
  deriving Repr, DecidableEq

/-- `this[WINDOW][0][property]++` for a single bucket. -/
def Bucket.incrementField (b : Bucket) (p : Property) : Bucket :=
  match p with
  | .failures => { b with failures := b.failures + 1 }
  | .fallbacks => { b with fallbacks := b.fallbacks + 1 }
  | .successes => { b with successes := b.successes + 1 }
  | .rejects => { b with rejects := b.rejects + 1 }
  | .fires => { b with fires := b.fires + 1 }
  | .timeouts => { b with timeouts := b.timeouts + 1 }
  | .cacheHits => { b with cacheHits := b.cacheHits + 1 }
  | .cacheMisses => { b with cacheMisses := b.cacheMisses + 1 }
  | .semaphoreRejections => { b with semaphoreRejections := b.semaphoreRejections + 1 }

/-- JS `v || 0` where `v` is a possibly-missing numeric argument:
`undefined` and `0` are falsy. -/
def jsOr (v : Option ℚ) : ℚ :=
  match v with
  | none => 0
  | some x => if x = 0 then 0 else x

/-- JS `arr[i] || 0` for a natural index: an out-of-bounds read is
`undefined`, and both `undefined` and element `0` coerce to `0`. -/
def jsIndexOr (arr : List ℚ) (i : ℕ) : ℚ :=
  match arr.get? i with
  | none => 0
  | some x => if x = 0 then 0 else x

/-- JS `arr[i] || 0` where `i` may be a negative integer (negative indices
read `undefined`). -/
def jsIndexOrInt (arr : List ℚ) (i : ℤ) : ℚ :=
  if i < 0 then 0 else jsIndexOr arr i.toNat

/-- `calculatePercentile(percentile, arr)` from `lib/status.js`. -/
def calculatePercentile (percentile : ℚ) (arr : List ℚ) : ℚ :=
  if percentile = 0 then
    jsIndexOr arr 0
  else
    let idx : ℤ := ⌈percentile * (arr.length : ℚ)⌉
    jsIndexOrInt arr (idx - 1)

/-- `this[PERCENTILES]`: the fixed quantile keys set in the constructor. -/
def PERCENTILES : List ℚ :=
  [0, 1/4, 1/2, 3/4, 9/10, 95/100, 99/100, 995/1000, 1]

/-- The mutable state of a `Status` instance: the window of buckets (index 0
is current, last is oldest) and the `rollingPercentilesEnabled` flag.  The
`rollingCountTimeout`/bucket-interval fields only feed the timers and carry
no functional content. -/
structure Status where
  window : List Bucket
  rollingPercentilesEnabled : Bool
  deriving Repr, DecidableEq

/-- The constructor's window priming: `new Array(N)` followed by
`for (let i = 0; i < N; i++) this[WINDOW][i] = bucket()`. -/
def Status.init (rollingCountBuckets : ℕ) (rollingPercentilesEnabled : Bool) : Status :=
  { window := List.replicate rollingCountBuckets bucket
    rollingPercentilesEnabled := rollingPercentilesEnabled }

/-- The full constructor over raw (possibly non-positive) integer options.
`new Array(n)` throws a `RangeError` for a negative length (modelled as
`none`); any non-negative count — including 0 — constructs successfully, and
no check of `rollingCountTimeout` is performed (it only feeds
`Math.floor(timeout / buckets)` for the timers). -/
def mkStatus (rollingCountBuckets rollingCountTimeout : ℤ)
    (rollingPercentilesEnabled : Bool) : Option Status :=
  if rollingCountBuckets < 0 then none
  else some (Status.init rollingCountBuckets.toNat rollingPercentilesEnabled)

/-- Sum of one counter field across the window, mirroring the
`reduce((acc, val) => ... acc[key] += val[key] || 0 ...)` accumulation (the
accumulator starts from the zeroed `bucket()`). -/
def sumField (w : List Bucket) (f : Bucket → ℕ) : ℕ :=
  w.foldl (fun acc b => acc + f b) 0

/-- The aggregate returned by the `stats` getter. -/
structure Stats where
  failures : ℕ
  fallbacks : ℕ
  successes : ℕ
  rejects : ℕ
  fires : ℕ
  timeouts : ℕ
  cacheHits : ℕ
  cacheMisses : ℕ
  semaphoreRejections : ℕ
  latencyTimes : List ℚ
  latencyMean : ℚ
  percentiles : List (ℚ × ℚ)
  deriving Repr, DecidableEq

/-- The `stats` getter.  The reduce over the window sums the nine counter
keys of the accumulator `bucket()` (skipping `latencyTimes` and
`percentiles`; `isCircuitBreakerOpen` is not a key of `bucket()`), and pools
latency samples only when `rollingPercentilesEnabled`.  The pooled list is
then sorted ascending; the mean is `sum/length` or 0 on empty; each
configured quantile is computed by `calculatePercentile`.  When percentile
tracking is disabled the mean and every quantile are the `-1` sentinel. -/
def Status.stats (s : Status) : Stats :=
  let w := s.window
  let pooled :=
    if s.rollingPercentilesEnabled then
      w.foldl (fun acc b => acc ++ b.latencyTimes) []
    else []
  let sorted := pooled.insertionSort (· ≤ ·)
  { failures := sumField w (·.failures)
    fallbacks := sumField w (·.fallbacks)
    successes := sumField w (·.successes)
    rejects := sumField w (·.rejects)
    fires := sumField w (·.fires)
    timeouts := sumField w (·.timeouts)
    cacheHits := sumField w (·.cacheHits)
    cacheMisses := sumField w (·.cacheMisses)
    semaphoreRejections := sumField w (·.semaphoreRejections)
    latencyTimes := sorted
    latencyMean :=
      if s.rollingPercentilesEnabled then
        if sorted.length ≠ 0 then sorted.sum / (sorted.length : ℚ) else 0
      else -1
    percentiles :=
      if s.rollingPercentilesEnabled then
        PERCENTILES.map fun p => (p, calculatePercentile p sorted)
      else
        PERCENTILES.map fun p => (p, -1) }

/-- `increment(property, latencyRunTime)`: bumps the named counter of
bucket 0 and, for `successes`/`failures`/`timeouts`, pushes
`latencyRunTime || 0` onto bucket 0's `latencyTimes` — unconditionally, with
no look at `rollingPercentilesEnabled`.  (On an empty window the JS code
would throw on `window[0]`; the theorems only use non-empty windows.) -/
def Status.increment (s : Status) (property : Property)
    (latencyRunTime : Option ℚ) : Status :=
  match s.window with
  | [] => s
  | b0 :: rest =>
    let b1 := b0.incrementField property
    let b2 :=
      if property = Property.successes ∨ property = Property.failures ∨
          property = Property.timeouts then
        { b1 with latencyTimes := b1.latencyTimes ++ [jsOr latencyRunTime] }
      else b1
    { s with window := b2 :: rest }

/-- `open()`: sets `isCircuitBreakerOpen = true` on bucket 0. -/
def Status.markOpen (s : Status) : Status :=
  match s.window with
  | [] => s
  | b0 :: rest =>
    { s with window := { b0 with isCircuitBreakerOpen := some true } :: rest }

/-- `close()`: sets `isCircuitBreakerOpen = false` on bucket 0. -/
def Status.markClose (s : Status) : Status :=
  match s.window with
  | [] => s
  | b0 :: rest =>
    { s with window := { b0 with isCircuitBreakerOpen := some false } :: rest }

/-- `nextBucket(window)`: the rotation performed on each timer tick —
`window.pop(); window.unshift(bucket())`.  (`pop` on an empty array is a
no-op, exactly as `List.dropLast [] = []`.) -/
def nextBucket (window : List Bucket) : List Bucket :=
  bucket :: window.dropLast

/-- Reference-level model of a `Status`, for claims about object identity:
buckets are heap objects addressed by allocation ids; the window is the
ordered list of ids (`this[WINDOW]` holds references). `Status.init`
allocates ids `0..N-1` in order, so the construction-time current bucket
`window[0]` is the object with id 0. -/
structure StatusRef where
  window : List ℕ
  heap : ℕ → Bucket
  nextId : ℕ
  rollingPercentilesEnabled : Bool

/-- Constructor at the reference level: `N` fresh bucket objects, the window
referencing them newest-first. -/
def StatusRef.init (rollingCountBuckets : ℕ)
    (rollingPercentilesEnabled : Bool) : StatusRef :=
  { window := List.range rollingCountBuckets
    heap := fun _ => bucket
    nextId := rollingCountBuckets
    rollingPercentilesEnabled := rollingPercentilesEnabled }

/-- `nextBucket` at the reference level: pop the last (oldest) reference,
allocate a fresh bucket object and unshift its reference at the front. -/
def StatusRef.rotate (s : StatusRef) : StatusRef :=
  { s with
    window := s.nextId :: s.window.dropLast
    heap := fun j => if j = s.nextId then bucket else s.heap j
    nextId := s.nextId + 1 }

/-- The `window` getter: `this[WINDOW].slice()` returns a *new array holding
the same bucket references*. -/
def StatusRef.windowCopy (s : StatusRef) : List ℕ :=
  s.window

/-- A caller mutating the bucket object behind reference `id` (e.g. writing a
field of a Bucket record obtained from the copied array). -/
def writeBucket (s : StatusRef) (id : ℕ) (f : Bucket → Bucket) : StatusRef :=
  { s with heap := fun j => if j = id then f (s.heap j) else s.heap j }

/-- The internal window as the `Status` object sees it: each reference
dereferenced in the heap. -/
def StatusRef.readWindow (s : StatusRef) : List Bucket :=
  s.window.map s.heap

/-! ### Helper lemmas -/

theorem jsOr_eq_getD (v : Option ℚ) : jsOr v = v.getD 0 := by
  cases v with
  | none => rfl
  | some x =>
    simp only [jsOr, Option.getD_some]
    split <;> simp_all

theorem jsIndexOr_eq_getD (arr : List ℚ) (i : ℕ) : jsIndexOr arr i = arr.getD i 0 := by
  unfold jsIndexOr
  rcases h : arr.get? i with _ | x
  · simp [List.getD, ← List.get?_eq_getElem?, h]
  · simp only [List.getD, ← List.get?_eq_getElem?, h, Option.getD_some]
    split <;> simp_all

theorem calculatePercentile_nil (p : ℚ) : calculatePercentile p [] = 0 := by
  unfold calculatePercentile jsIndexOrInt jsIndexOr
  split
  · rfl
  · norm_num

theorem foldl_append_eq (l : List (List ℚ)) (a : List ℚ) :
    l.foldl (fun acc x => acc ++ x) a = a ++ l.flatten := by
  induction l generalizing a with
  | nil => simp
  | cons x t ih => simp [ih, List.append_assoc]

theorem foldl_add_eq (w : List Bucket) (f : Bucket → ℕ) (a : ℕ) :
    w.foldl (fun acc b => acc + f b) a = a + (w.map f).sum := by
  induction w generalizing a with
  | nil => simp
  | cons b t ih => simp [ih, Nat.add_assoc]

theorem sumField_eq_sum_map (w : List Bucket) (f : Bucket → ℕ) :
    sumField w f = (w.map f).sum := by
  unfold sumField
  simp [foldl_add_eq]

/-- A one-bucket window whose pooled latencies sort to `[10, 20, 30, 40]`,
with percentile tracking enabled. -/
def demoStatus : Status :=
  { window := [{ bucket with latencyTimes := [20, 10, 40, 30] }]
    rollingPercentilesEnabled := true }

/-- C1: for every sorted non-empty latency list the percentile computation
follows nearest-rank — quantile 0 yields the first element, and any quantile
`p` with `0 < p ≤ 1` yields the element at index `⌈p·length⌉ - 1` (which is
in bounds); in particular a stats read over pooled latencies
`[10, 20, 30, 40]` with percentile tracking enabled reports
`percentile(0) = 10`, `percentile(1/2) = 20`, `percentile(1) = 40`. -/
theorem calculatePercentile_nearest_rank (arr : List ℚ) (h : arr ≠ [])
    (hsorted : arr.Sorted (· ≤ ·)) :
    calculatePercentile 0 arr = arr.headI ∧
    (∀ p : ℚ, 0 < p → p ≤ 1 →
      (⌈p * (arr.length : ℚ)⌉ - 1).toNat < arr.length ∧
      calculatePercentile p arr = arr.getD (⌈p * (arr.length : ℚ)⌉ - 1).toNat 0) ∧
    ((0 : ℚ), (10 : ℚ)) ∈ demoStatus.stats.percentiles ∧
    ((1/2 : ℚ), (20 : ℚ)) ∈ demoStatus.stats.percentiles ∧
    ((1 : ℚ), (40 : ℚ)) ∈ demoStatus.stats.percentiles := by
  refine ⟨?_, ?_, ?_, ?_, ?_⟩
  · rcases arr with _ | ⟨a, t⟩
    · exact absurd rfl h
    · unfold calculatePercentile jsIndexOr
      simp only [if_pos rfl, List.get?_cons_zero]
      split <;> simp_all [List.headI]
  · intro p hp hp1
    have hn : 0 < arr.length := List.length_pos.mpr h
    have hnq : (0 : ℚ) < (arr.length : ℚ) := by exact_mod_cast hn
    have hpos : (0 : ℚ) < p * (arr.length : ℚ) := mul_pos hp hnq
    have hceil1 : 1 ≤ ⌈p * (arr.length : ℚ)⌉ := Int.ceil_pos.mpr hpos
    have hceiln : ⌈p * (arr.length : ℚ)⌉ ≤ (arr.length : ℤ) := by
      rw [Int.ceil_le]
      push_cast
      calc p * (arr.length : ℚ) ≤ 1 * (arr.length : ℚ) := by
            exact mul_le_mul_of_nonneg_right hp1 (le_of_lt hnq)
        _ = (arr.length : ℚ) := one_mul _
    have hidx : (⌈p * (arr.length : ℚ)⌉ - 1).toNat < arr.length := by omega
    refine ⟨hidx, ?_⟩
    unfold calculatePercentile
    rw [if_neg (ne_of_gt hp)]
    unfold jsIndexOrInt
    rw [if_neg (by omega)]
    exact jsIndexOr_eq_getD _ _
  · norm_num [Status.stats, demoStatus, List.insertionSort, List.orderedInsert, PERCENTILES,
      calculatePercentile, jsIndexOr, jsIndexOrInt]
  · norm_num [Status.stats, demoStatus, List.insertionSort, List.orderedInsert, PERCENTILES,
      calculatePercentile, jsIndexOr, jsIndexOrInt]
    decide
  · norm_num [Status.stats, demoStatus, List.insertionSort, List.orderedInsert, PERCENTILES,
      calculatePercentile, jsIndexOr, jsIndexOrInt]
    decide

/-- Witness for C1, instantiated at the sorted list `[10, 20, 30, 40]`. -/
theorem calculatePercentile_nearest_rank_witness :
    calculatePercentile 0 ([10, 20, 30, 40] : List ℚ) = ([10, 20, 30, 40] : List ℚ).headI :=
  (calculatePercentile_nearest_rank [10, 20, 30, 40] (by decide)
    (by norm_num [List.sorted_cons])).1

theorem foldl_latency_flatten (w : List Bucket) :
    w.foldl (fun acc b => acc ++ b.latencyTimes) [] = (w.map (·.latencyTimes)).flatten := by
  rw [← List.foldl_map, foldl_append_eq]
  rfl

/-- C3: whenever percentile tracking is disabled, every `stats` read —
whatever events were previously recorded into the window — returns
`latencyMean = -1` and a percentiles map whose every entry is `-1`. -/
theorem stats_disabled_sentinel (w : List Bucket) :
    (Status.mk w false).stats.latencyMean = -1 ∧
    (Status.mk w false).stats.percentiles = PERCENTILES.map (fun p => (p, -1)) := by
  constructor <;> simp [Status.stats]

/-- C4: with percentile tracking enabled and every bucket's latency list
empty (so the pooled list is empty), a `stats` read returns
`latencyMean = 0` and a percentiles map whose every entry is `0`. -/
theorem stats_empty_latencies_zero (w : List Bucket)
    (hw : ∀ b ∈ w, b.latencyTimes = []) :
    (Status.mk w true).stats.latencyMean = 0 ∧
    (Status.mk w true).stats.percentiles = PERCENTILES.map (fun p => (p, 0)) := by
  have hpooled : w.foldl (fun acc b => acc ++ b.latencyTimes) [] = ([] : List ℚ) := by
    rw [foldl_latency_flatten]
    rw [List.flatten_eq_nil_iff]
    intro l hl
    obtain ⟨b, hb, rfl⟩ := List.mem_map.mp hl
    exact hw b hb
  constructor <;> simp [Status.stats, hpooled, calculatePercentile_nil]

/-- Witness for C4 at a two-bucket window with no samples. -/
theorem stats_empty_latencies_zero_witness :
    (Status.mk [bucket, bucket] true).stats.latencyMean = 0 :=
  (stats_empty_latencies_zero [bucket, bucket] (by decide)).1

/-- C5: for every positive `N = rollingCountBuckets`, construction fills the
window with exactly `N` fresh buckets (none undefined), rotation preserves
the length of any non-empty window, and the window still has exactly `N`
entries after every number `k` of rotation steps. -/
theorem window_length_invariant (N k : ℕ) (hN : 0 < N) (rpe : Bool) :
    (Status.init N rpe).window = List.replicate N bucket ∧
    (Status.init N rpe).window.length = N ∧
    (∀ w : List Bucket, w ≠ [] → (nextBucket w).length = w.length) ∧
    (nextBucket^[k] (Status.init N rpe).window).length = N := by
  have hlen : ∀ w : List Bucket, w ≠ [] → (nextBucket w).length = w.length := by
    intro w hw
    unfold nextBucket
    rcases w with _ | ⟨b, t⟩
    · exact absurd rfl hw
    · simp
  refine ⟨rfl, by simp [Status.init], hlen, ?_⟩
  induction k with
  | zero => simp [Status.init]
  | succ k ih =>
    rw [Function.iterate_succ_apply']
    have hne : nextBucket^[k] (Status.init N rpe).window ≠ [] := by
      intro hnil
      rw [hnil] at ih
      simp at ih
      omega
    rw [hlen _ hne, ih]

/-- Witness for C5 at `N = 3` after 5 rotations. -/
theorem window_length_invariant_witness :
    (nextBucket^[5] (Status.init 3 true).window).length = 3 :=
  (window_length_invariant 3 5 (by decide) true).2.2.2

theorem incrementField_latencyTimes (b : Bucket) (p : Property) :
    (b.incrementField p).latencyTimes = b.latencyTimes := by
  cases p <;> rfl

theorem incrementField_isOpen (b : Bucket) (p : Property) :
    (b.incrementField p).isCircuitBreakerOpen = b.isCircuitBreakerOpen := by
  cases p <;> rfl

theorem jsOr_some (x : ℚ) : jsOr (some x) = x := by
  rcases eq_or_ne x 0 with h0 | h0 <;> simp [jsOr, h0]

theorem stats_latencyTimes_def (s : Status) :
    s.stats.latencyTimes
      = (if s.rollingPercentilesEnabled then
          s.window.foldl (fun acc b => acc ++ b.latencyTimes) []
        else []).insertionSort (· ≤ ·) := rfl

theorem increment_preserves_flag (s : Status) (p : Property) (x : Option ℚ) :
    (s.increment p x).rollingPercentilesEnabled = s.rollingPercentilesEnabled := by
  unfold Status.increment
  rcases s with ⟨w, r⟩
  rcases w with _ | ⟨b, t⟩ <;> simp

/-- C7: from a freshly constructed window, `increment('successes', x)`
followed by a `stats` read with no rotation in between yields
`stats.successes = 1`, and when percentile tracking is enabled the value `x`
is present in the pooled latency list of the aggregate. -/
theorem increment_success_then_stats (N : ℕ) (hN : 0 < N) (rpe : Bool) (x : ℚ) :
    (((Status.init N rpe).increment Property.successes (some x)).stats.successes = 1) ∧
    (rpe = true →
      x ∈ ((Status.init N rpe).increment Property.successes (some x)).stats.latencyTimes) := by
  obtain ⟨m, rfl⟩ : ∃ m, N = m + 1 := ⟨N - 1, by omega⟩
  have hwin : ((Status.init (m + 1) rpe).increment Property.successes (some x)).window
      = { bucket with successes := 1, latencyTimes := [x] } :: List.replicate m bucket := by
    simp [Status.init, List.replicate_succ, Status.increment, Bucket.incrementField,
      jsOr_some, bucket]
  constructor
  · simp only [Status.stats, hwin, sumField_eq_sum_map]
    simp [List.map_replicate, bucket]
  · intro hrpe
    subst hrpe
    have hflag : ((Status.init (m + 1) true).increment Property.successes
        (some x)).rollingPercentilesEnabled = true :=
      increment_preserves_flag _ _ _
    have hpool : ({ bucket with successes := 1, latencyTimes := [x] }
          :: List.replicate m bucket).foldl
        (fun acc b => acc ++ b.latencyTimes) [] = [x] := by
      rw [foldl_latency_flatten]
      simp [List.map_replicate, bucket]
    rw [stats_latencyTimes_def, hflag, if_pos rfl, hwin, hpool]
    exact ((List.perm_insertionSort _ _).mem_iff).mpr (by simp)

/-- Witness for C7 at `N = 1`, `x = 7`, tracking enabled. -/
theorem increment_success_then_stats_witness :
    (((Status.init 1 true).increment Property.successes (some 7)).stats.successes = 1) ∧
    (7 : ℚ) ∈ ((Status.init 1 true).increment Property.successes (some 7)).stats.latencyTimes :=
  ⟨(increment_success_then_stats 1 (by decide) true 7).1,
    (increment_success_then_stats 1 (by decide) true 7).2 rfl⟩

/-- C8: `increment(eventKind, latencyValue)` appends the latency value
(0 when the argument is omitted) to bucket 0's latency list exactly when
`eventKind` is `successes`, `failures` or `timeouts` — regardless of the
`rollingPercentilesEnabled` flag — while the other six counters never
append. -/
theorem increment_latency_unconditional (w : List Bucket) (hw : w ≠ []) (rpe : Bool)
    (p : Property) (x : Option ℚ) :
    ((p = Property.successes ∨ p = Property.failures ∨ p = Property.timeouts) →
      ((Status.mk w rpe).increment p x).window.headI.latencyTimes
        = w.headI.latencyTimes ++ [x.getD 0]) ∧
    (¬(p = Property.successes ∨ p = Property.failures ∨ p = Property.timeouts) →
      ((Status.mk w rpe).increment p x).window.headI.latencyTimes
        = w.headI.latencyTimes) := by
  rcases w with _ | ⟨b, t⟩
  · exact absurd rfl hw
  constructor <;> intro hcond
  · simp [Status.increment, if_pos hcond, jsOr_eq_getD, incrementField_latencyTimes]
  · simp [Status.increment, if_neg hcond, incrementField_latencyTimes]

/-- Witness for C8: incrementing `successes` with the latency argument
omitted, percentile tracking disabled, appends a 0. -/
theorem increment_latency_unconditional_witness :
    ((Status.mk [bucket] false).increment Property.successes none).window.headI.latencyTimes
      = [bucket].headI.latencyTimes ++ [(none : Option ℚ).getD 0] :=
  (increment_latency_unconditional [bucket] (by simp) false Property.successes none).1
    (Or.inl rfl)

/-- C9 counterexample: a freshly created bucket does *not* carry a
boolean-valued `isCircuitBreakerOpen` field — the `bucket()` literal has no
such key, so on fresh buckets it is `undefined` (`none`), neither `true` nor
`false`. -/
theorem fresh_bucket_isOpen_undefined :
    bucket.isCircuitBreakerOpen = none ∧
    bucket.isCircuitBreakerOpen ≠ some true ∧
    bucket.isCircuitBreakerOpen ≠ some false := by decide

/-- C9 amended: `isCircuitBreakerOpen` is absent (`undefined`) on freshly
created buckets, both at construction and on the fresh bucket a rotation
inserts; it becomes boolean only once `open()` (sets `true`) or `close()`
(sets `false`) writes the current bucket, and `increment` never changes
it. -/
theorem isOpen_lifecycle (w : List Bucket) (hw : w ≠ []) (rpe : Bool)
    (p : Property) (x : Option ℚ) :
    bucket.isCircuitBreakerOpen = none ∧
    (nextBucket w).headI.isCircuitBreakerOpen = none ∧
    (Status.mk w rpe).markOpen.window.headI.isCircuitBreakerOpen = some true ∧
    (Status.mk w rpe).markClose.window.headI.isCircuitBreakerOpen = some false ∧
    ((Status.mk w rpe).increment p x).window.headI.isCircuitBreakerOpen
      = w.headI.isCircuitBreakerOpen := by
  rcases w with _ | ⟨b, t⟩
  · exact absurd rfl hw
  refine ⟨rfl, rfl, rfl, rfl, ?_⟩
  simp only [Status.increment]
  split
  · simp [incrementField_isOpen]
  · simp [incrementField_isOpen]

/-- Witness for C9 (amended) at a one-bucket window. -/
theorem isOpen_lifecycle_witness :
    (Status.mk [bucket] true).markOpen.window.headI.isCircuitBreakerOpen = some true :=
  (isOpen_lifecycle [bucket] (by simp) true Property.fires none).2.2.1

/-- C10 counterexample: construction with `rollingCountBuckets = 0` (which
is `≤ 0`) is *not* rejected — it succeeds and yields a zero-length
window. -/
theorem mkStatus_zero_buckets_accepted :
    mkStatus 0 1000 true
      = some { window := [], rollingPercentilesEnabled := true } := by decide

/-- C10 amended: the constructor performs no validation of its own — a
negative `rollingCountBuckets` happens to throw (the `RangeError` of
`new Array`), but `rollingCountBuckets = 0` and any `rollingCountTimeout`,
non-positive values included, are accepted, producing a window of length
`rollingCountBuckets.toNat`. -/
theorem mkStatus_validation (b t : ℤ) (rpe : Bool) :
    (b < 0 → mkStatus b t rpe = none) ∧
    (0 ≤ b → mkStatus b t rpe = some (Status.init b.toNat rpe) ∧
      (Status.init b.toNat rpe).window.length = b.toNat) := by
  constructor
  · intro hb
    simp [mkStatus, hb]
  · intro hb
    refine ⟨?_, by simp [Status.init]⟩
    simp [mkStatus, not_lt.mpr hb]

/-- Witness for C10 (amended): a negative bucket count throws. -/
theorem mkStatus_validation_witness :
    mkStatus (-1) 1000 true = none :=
  (mkStatus_validation (-1) 1000 true).1 (by decide)

/-- C2 counterexample: the sequence returned by the `window` accessor is
only a shallow copy — mutating a Bucket record it contains (here: writing
`successes := 5` through the copied head reference of a 1-bucket status)
changes the internal window state. -/
theorem window_copy_shared_mutation :
    StatusRef.readWindow
        (writeBucket (StatusRef.init 1 true)
          ((StatusRef.init 1 true).windowCopy.headI)
          (fun b => { b with successes := 5 }))
      ≠ (StatusRef.init 1 true).readWindow := by decide

/-- C2 amended: `window` returns a fresh array holding the *same* bucket
references as the internal window, so while the sequence itself is a copy,
the Bucket records are shared: mutating the bucket behind the copied head
reference rewrites slot 0 of the internal window (to `f bucket`), which
differs from the pristine internal window whenever `f bucket ≠ bucket`. -/
theorem window_copy_shallow (N : ℕ) (hN : 0 < N) (rpe : Bool) (f : Bucket → Bucket) :
    (StatusRef.init N rpe).windowCopy = (StatusRef.init N rpe).window ∧
    (StatusRef.init N rpe).readWindow = List.replicate N bucket ∧
    StatusRef.readWindow
        (writeBucket (StatusRef.init N rpe) ((StatusRef.init N rpe).windowCopy.headI) f)
      = f bucket :: List.replicate (N - 1) bucket := by
  obtain ⟨m, rfl⟩ : ∃ m, N = m + 1 := ⟨N - 1, by omega⟩
  refine ⟨rfl, ?_, ?_⟩
  · simp [StatusRef.readWindow, StatusRef.init, List.map_const']
  · have hhead : (StatusRef.init (m + 1) rpe).windowCopy.headI = 0 := by
      simp [StatusRef.windowCopy, StatusRef.init, List.range_succ_eq_map]
    rw [hhead]
    simp only [StatusRef.readWindow, writeBucket, StatusRef.init, List.range_succ_eq_map,
      List.map_cons, List.map_map]
    simp [Function.comp_def, Nat.succ_ne_zero, List.map_const']

/-- Witness for C2 (amended) at a one-bucket window. -/
theorem window_copy_shallow_witness :
    StatusRef.readWindow
        (writeBucket (StatusRef.init 1 false) ((StatusRef.init 1 false).windowCopy.headI)
          (fun b => { b with fires := 3 }))
      = (fun b => { b with fires := 3 }) bucket :: List.replicate 0 bucket :=
  (window_copy_shallow 1 (by decide) false (fun b => { b with fires := 3 })).2.2

/-- After `k` rotations from construction, the allocator counter is `N + k`
and the window is the newest `N` of the ids `[N+k-1, ..., N] ++ [0, ..., N-1]`. -/
theorem rotate_iter_window (N : ℕ) (hN : 0 < N) (rpe : Bool) (k : ℕ) :
    (StatusRef.rotate^[k] (StatusRef.init N rpe)).nextId = N + k ∧
    (StatusRef.rotate^[k] (StatusRef.init N rpe)).window
      = (((List.range' N k).reverse) ++ List.range N).take N := by
  induction k with
  | zero =>
    exact ⟨rfl, by simp [StatusRef.init]⟩
  | succ k ih =>
    obtain ⟨ihId, ihWin⟩ := ih
    rw [Function.iterate_succ_apply']
    refine ⟨by simp [StatusRef.rotate, ihId, Nat.add_assoc], ?_⟩
    simp only [StatusRef.rotate, ihId, ihWin]
    have hlen : (((List.range' N k).reverse) ++ List.range N).length = k + N := by
      simp
    rw [List.dropLast_eq_take, List.length_take, hlen]
    have hmin : min N (k + N) = N := by omega
    rw [hmin, List.take_take]
    have hmin2 : min (N - 1) N = N - 1 := by omega
    rw [hmin2]
    rw [List.range'_concat, List.reverse_append]
    simp only [List.reverse_singleton, List.singleton_append, List.cons_append]
    obtain ⟨n, rfl⟩ : ∃ n, N = n + 1 := ⟨N - 1, by omega⟩
    rw [List.take_succ_cons]
    simp

/-- C6: each rotation removes the last (oldest) bucket and inserts a fresh
empty bucket at the front; the bucket that was current at construction
(allocation id 0) sits at position `k` after `k < N` rotations and has been
evicted from the window once `k ≥ N`. -/
theorem rotation_evicts_oldest (N k : ℕ) (hN : 0 < N) (rpe : Bool) :
    (∀ s : StatusRef, s.rotate.window = s.nextId :: s.window.dropLast
        ∧ s.rotate.heap s.nextId = bucket) ∧
    (k < N → (StatusRef.rotate^[k] (StatusRef.init N rpe)).window[k]? = some 0) ∧
    (N ≤ k → 0 ∉ (StatusRef.rotate^[k] (StatusRef.init N rpe)).window) := by
  refine ⟨fun s => ⟨rfl, by simp [StatusRef.rotate]⟩, ?_, ?_⟩
  · intro hk
    obtain ⟨-, hwin⟩ := rotate_iter_window N hN rpe k
    rw [hwin, List.getElem?_take_of_lt hk,
      List.getElem?_append_right (by simp)]
    simp [List.getElem?_range hN]
  · intro hk
    obtain ⟨-, hwin⟩ := rotate_iter_window N hN rpe k
    rw [hwin]
    intro hmem
    rw [List.take_append_eq_append_take] at hmem
    have hrevlen : ((List.range' N k).reverse).length = k := by simp
    rw [hrevlen] at hmem
    have : N - k = 0 := by omega
    rw [this, List.take_zero, List.append_nil] at hmem
    have h0 : (0 : ℕ) ∈ (List.range' N k).reverse := List.take_subset _ _ hmem
    rw [List.mem_reverse] at h0
    obtain ⟨i, hi, hEq⟩ := List.mem_range'.mp h0
    omega

/-- Witness for C6 at `N = 3`, `k = 2` (present) and `k = 3` (evicted). -/
theorem rotation_evicts_oldest_witness :
    ((StatusRef.rotate^[2] (StatusRef.init 3 true)).window[2]? = some 0) ∧
    (0 ∉ (StatusRef.rotate^[3] (StatusRef.init 3 true)).window) :=
  ⟨(rotation_evicts_oldest 3 2 (by decide) true).2.1 (by decide),
    (rotation_evicts_oldest 3 3 (by decide) true).2.2 (by decide)⟩
